import Mathlib

/-!
Verification of the RTCM monitor's frame decoder, satellite-count extractors,
NTRIP handshake and reconnecting supervisor, shallowly embedded from
`ntrip_client.py` and `coordinator.py`.  Bytes are modelled as `Nat` (the
source reads them from Python `bytes`, so concrete inputs use values < 256)
and byte buffers as `List Nat`.
-/

/-- A decoded message record, `{'id': .., 'length': .., 'satellites': ..}` built
in `NTRIPClient._process_buffer` (ntrip_client.py lines 203-207). -/
structure RTCMMsg where
  id : Nat
  length : Nat
  satellites : Option Nat
deriving DecidableEq, Repr

/-- Python `int.from_bytes(l, byteorder='big')`. -/
def bytesToNatBE (l : List Nat) : Nat :=
  l.foldl (fun acc b => acc * 256 + b) 0

/-- Fuel-driven bit count: `popCountFuel f n` adds the low bit of `n` and
recurses on `n / 2`, for at most `f` steps.  `f ≥ n` makes the fuel
irrelevant (`popCountFuel_congr`), giving the usual binary recurrence
(`popCount_zero`, `popCount_rec`). -/
def popCountFuel : Nat → Nat → Nat
  | 0, _ => 0
  | f + 1, n => if n = 0 then 0 else n % 2 + popCountFuel f (n / 2)

/-- Python `bin(n).count('1')`: the number of set bits of `n`.  `n` itself is
always enough fuel since `n < 2 ^ n`. -/
def popCount (n : Nat) : Nat := popCountFuel n n

theorem popCountFuel_congr : ∀ f g n : Nat, n ≤ f → n ≤ g → popCountFuel f n = popCountFuel g n := by
  intro f
  induction f with
  | zero =>
    intro g n hf hg
    have hn : n = 0 := Nat.le_zero.mp hf
    subst hn
    cases g with
    | zero => rfl
    | succ g => simp [popCountFuel]
  | succ f ih =>
    intro g n hf hg
    by_cases hn : n = 0
    · subst hn
      cases g with
      | zero => simp [popCountFuel]
      | succ g => simp [popCountFuel]
    · have hn1 : 1 ≤ n := Nat.one_le_iff_ne_zero.mpr hn
      cases g with
      | zero => omega
      | succ g =>
        rw [popCountFuel, popCountFuel, if_neg hn, if_neg hn]
        have hhalf : n / 2 ≤ f := by omega
        have hhalf2 : n / 2 ≤ g := by omega
        rw [ih (n / 2) (n / 2) hhalf (Nat.le_refl _)]
        exact congrArg (n % 2 + ·) ((ih (n / 2) (n / 2) hhalf (Nat.le_refl _)).symm.trans
          (ih g (n / 2) hhalf hhalf2))

theorem popCount_zero : popCount 0 = 0 := rfl

theorem popCount_rec (n : Nat) (h : 0 < n) : popCount n = n % 2 + popCount (n / 2) := by
  cases n with
  | zero => omega
  | succ m =>
    rw [popCount, popCountFuel, if_neg (Nat.succ_ne_zero m), popCount]
    have hle : (m + 1) / 2 ≤ m := by omega
    rw [popCountFuel_congr m ((m + 1) / 2) ((m + 1) / 2) hle (Nat.le_refl _)]

/-- The keys of the `legacy_obs_messages` dict (ntrip_client.py lines 223-232). -/
def legacyObsIds : List Nat := [1001, 1002, 1003, 1004, 1009, 1010, 1011, 1012]

/-- `NTRIPClient._parse_legacy_obs_satellite_count` (ntrip_client.py lines
298-357): read the 5-bit satellite count 52 bits (GLONASS ids 1009-1012) or
55 bits (other ids) into the payload, from a big-endian interpretation of
`message[3:11]`; a count of 0 is reported as `None`. -/
def parseLegacyObsSatelliteCount (message : List Nat) (msgId : Nat) : Option Nat :=
  if message.length < 10 then none
  else
    let bitsBeforeSatCount : Nat := if 1009 ≤ msgId ∧ msgId ≤ 1012 then 52 else 55
    let payloadBytes := (message.drop 3).take 8
    if payloadBytes.length < 8 then none
    else
      let bitStream := bytesToNatBE payloadBytes
      let shiftAmount := 64 - bitsBeforeSatCount - 5
      let satCount := (bitStream >>> shiftAmount) &&& 31
      if satCount ≤ 64 then (if 0 < satCount then some satCount else none)
      else none

/-- The `msm_ranges` list (ntrip_client.py lines 240-246). -/
def msmRanges : List (Nat × Nat) :=
  [(1074, 1077), (1084, 1087), (1094, 1097), (1114, 1117), (1124, 1127)]

/-- `NTRIPClient._parse_msm_satellite_count` (ntrip_client.py lines 220-296):
legacy observation ids are delegated to the legacy parser; for MSM ids the
count is the number of set bits of the 64-bit big-endian value in
`message[11:19]`, with `None` for frames shorter than 20 bytes or an empty
mask. -/
def parseMsmSatelliteCount (message : List Nat) (msgId : Nat) : Option Nat :=
  if msgId ∈ legacyObsIds then parseLegacyObsSatelliteCount message msgId
  else
    let isMsm := msmRanges.any (fun p => decide (p.1 ≤ msgId ∧ msgId ≤ p.2))
    if isMsm = false ∨ message.length < 14 then none
    else if message.length < 20 then none
    else
      let satMask := bytesToNatBE ((message.drop 11).take 8)
      let satCount := popCount satMask
      if 0 < satCount then some satCount else none

example : parseMsmSatelliteCount
    [211, 0, 8, 62, 176, 0, 0, 0, 0, 0, 144, 0, 0, 0] 1003 = some 9 := by decide

example : parseMsmSatelliteCount
    [211, 0, 14, 67, 80, 0, 0, 0, 0, 0, 0, 127, 0, 0, 0, 0, 0, 0, 0, 0] 1077 = some 7 := by
  decide

/-- The trim loop at the top of `NTRIPClient._process_buffer` (ntrip_client.py
lines 172-175): discard leading bytes until the 0xD3 frame marker. -/
def dropGarbage : List Nat → List Nat
  | [] => []
  | b :: rest => if b = 211 then b :: rest else dropGarbage rest

/-- The declared payload length of a frame starting at the head of `b`:
`((buffer[idx+1] & 0x03) << 8) | buffer[idx+2]` (ntrip_client.py line 189). -/
def declaredPayloadLen (b : List Nat) : Nat :=
  ((b.getD 1 0 &&& 3) <<< 8) ||| b.getD 2 0

/-- The 12-bit message id of a frame starting at the head of `b`:
`(buffer[idx+3] << 4) | (buffer[idx+4] >> 4)` (ntrip_client.py line 198). -/
def frameMsgId (b : List Nat) : Nat :=
  (b.getD 3 0 <<< 4) ||| (b.getD 4 0 >>> 4)

/-- The scan loop of `NTRIPClient._process_buffer` (ntrip_client.py lines
181-215), phrased on the suffix of the buffer starting at `idx`: while at
least 6 bytes remain, skip a non-0xD3 byte, stop on an incomplete frame, or
slice off a complete frame and record its message. Returns
`(buffer[idx:], messages)`. -/
def scanBuf (b : List Nat) : List Nat × List RTCMMsg :=
  if b.length < 6 then (b, [])
  else if b.getD 0 0 = 211 then
    if b.length < declaredPayloadLen b + 6 then (b, [])
    else
      ((scanBuf (b.drop (declaredPayloadLen b + 6))).1,
        ⟨frameMsgId b, declaredPayloadLen b,
          parseMsmSatelliteCount (b.take (declaredPayloadLen b + 6)) (frameMsgId b)⟩ ::
          (scanBuf (b.drop (declaredPayloadLen b + 6))).2)
  else scanBuf b.tail
termination_by b.length
decreasing_by
  all_goals simp only [List.length_drop, List.length_tail]
  all_goals omega

/-- `NTRIPClient._process_buffer` (ntrip_client.py lines 167-218): trim
leading non-marker bytes, then scan; returns the remaining buffer and the
decoded messages in arrival order. -/
def processBuffer (buffer : List Nat) : List Nat × List RTCMMsg :=
  scanBuf (dropGarbage buffer)

/-- Repeated `_process_buffer` calls over a sequence of chunks, each call's
returned remaining buffer prepended to the next chunk (the read loop of
`NTRIPClient.connect`, ntrip_client.py lines 126-158). -/
def processChunks : List (List Nat) → List Nat → List Nat × List RTCMMsg
  | [], carry => (carry, [])
  | c :: cs, carry =>
    ((processChunks cs (processBuffer (carry ++ c)).1).1,
      (processBuffer (carry ++ c)).2 ++ (processChunks cs (processBuffer (carry ++ c)).1).2)

theorem scanBuf_eq_short (b : List Nat) (h : b.length < 6) : scanBuf b = (b, []) := by
  rw [scanBuf, if_pos h]

theorem scanBuf_eq_skip (b : List Nat) (h6 : ¬ b.length < 6) (hD : ¬ b.getD 0 0 = 211) :
    scanBuf b = scanBuf b.tail := by
  rw [scanBuf, if_neg h6, if_neg hD]

theorem scanBuf_eq_incomplete (b : List Nat) (h6 : ¬ b.length < 6) (hD : b.getD 0 0 = 211)
    (hL : b.length < declaredPayloadLen b + 6) : scanBuf b = (b, []) := by
  rw [scanBuf, if_neg h6, if_pos hD, if_pos hL]

theorem scanBuf_eq_complete (b : List Nat) (h6 : ¬ b.length < 6) (hD : b.getD 0 0 = 211)
    (hL : ¬ b.length < declaredPayloadLen b + 6) :
    scanBuf b =
      ((scanBuf (b.drop (declaredPayloadLen b + 6))).1,
        ⟨frameMsgId b, declaredPayloadLen b,
          parseMsmSatelliteCount (b.take (declaredPayloadLen b + 6)) (frameMsgId b)⟩ ::
          (scanBuf (b.drop (declaredPayloadLen b + 6))).2) := by
  rw [scanBuf, if_neg h6, if_pos hD, if_neg hL]

theorem dropGarbage_length_le (l : List Nat) : (dropGarbage l).length ≤ l.length := by
  induction l with
  | nil => simp [dropGarbage]
  | cons b rest ih =>
    rw [dropGarbage]
    split
    · simp
    · simpa using Nat.le_succ_of_le ih

theorem dropGarbage_of_marker (l : List Nat) (h : l.getD 0 0 = 211) : dropGarbage l = l := by
  cases l with
  | nil => rfl
  | cons b rest =>
    simp only [List.getD_cons_zero] at h
    rw [dropGarbage, if_pos h]

theorem dropGarbage_tail (l : List Nat) (hne : l ≠ []) (h : ¬ l.getD 0 0 = 211) :
    dropGarbage l = dropGarbage l.tail := by
  cases l with
  | nil => exact absurd rfl hne
  | cons b rest =>
    simp only [List.getD_cons_zero] at h
    rw [dropGarbage, if_neg h]
    rfl

theorem dropGarbage_idem (l : List Nat) : dropGarbage (dropGarbage l) = dropGarbage l := by
  induction l with
  | nil => rfl
  | cons b rest ih =>
    rw [dropGarbage]
    split
    · rename_i h
      rw [dropGarbage, if_pos h]
    · exact ih

theorem dropGarbage_append (x c : List Nat) :
    dropGarbage (x ++ c) = dropGarbage (dropGarbage x ++ c) := by
  induction x with
  | nil => rfl
  | cons b rest ih =>
    by_cases h : b = 211
    · subst h
      rw [List.cons_append, dropGarbage, if_pos rfl, dropGarbage, if_pos rfl,
        List.cons_append, dropGarbage, if_pos rfl]
    · rw [List.cons_append, dropGarbage, if_neg h, dropGarbage, if_neg h]
      exact ih

/-- The remaining buffer returned by the scan loop is quiescent: scanning it
again with no new data finds nothing and keeps it whole. -/
theorem scanBuf_rem_quiescent (b : List Nat) :
    scanBuf ((scanBuf b).1) = ((scanBuf b).1, []) := by
  induction b using scanBuf.induct with
  | case1 x h =>
    rw [scanBuf_eq_short x h]
    exact scanBuf_eq_short x h
  | case2 x h6 hD hL =>
    rw [scanBuf_eq_incomplete x h6 hD hL]
    exact scanBuf_eq_incomplete x h6 hD hL
  | case3 x h6 hD hL ih =>
    rw [scanBuf_eq_complete x h6 hD hL]
    exact ih
  | case4 x h6 hD ih =>
    rw [scanBuf_eq_skip x h6 hD]
    exact ih

/-- The initial trim commutes with the scan: trimming first changes neither the
message list nor the remaining buffer up to trimming. -/
theorem scanBuf_dropGarbage (x : List Nat) :
    (scanBuf x).2 = (scanBuf (dropGarbage x)).2 ∧
      dropGarbage (scanBuf x).1 = dropGarbage ((scanBuf (dropGarbage x)).1) := by
  induction x using scanBuf.induct with
  | case1 x h =>
    have hg : (dropGarbage x).length < 6 := lt_of_le_of_lt (dropGarbage_length_le x) h
    rw [scanBuf_eq_short x h, scanBuf_eq_short _ hg]
    exact ⟨rfl, (dropGarbage_idem x).symm⟩
  | case2 x h6 hD hL =>
    rw [dropGarbage_of_marker x hD]
    exact ⟨rfl, rfl⟩
  | case3 x h6 hD hL ih =>
    rw [dropGarbage_of_marker x hD]
    exact ⟨rfl, rfl⟩
  | case4 x h6 hD ih =>
    have hne : x ≠ [] := by
      intro hx
      rw [hx] at h6
      simp at h6
    rw [scanBuf_eq_skip x h6 hD, dropGarbage_tail x hne hD]
    exact ih

/-- Scanning a buffer extended by `c` finds first the messages of the buffer
alone, then the messages of its remaining buffer with `c` appended; the final
remaining buffer agrees as well. -/
theorem scanBuf_append (b c : List Nat) :
    scanBuf (b ++ c) =
      ((scanBuf ((scanBuf b).1 ++ c)).1,
        (scanBuf b).2 ++ (scanBuf ((scanBuf b).1 ++ c)).2) := by
  induction b using scanBuf.induct with
  | case1 x h =>
    rw [scanBuf_eq_short x h]
    simp
  | case2 x h6 hD hL =>
    rw [scanBuf_eq_incomplete x h6 hD hL]
    simp
  | case4 x h6 hD ih =>
    have hne : x ≠ [] := by
      intro hx
      rw [hx] at h6
      simp at h6
    have hlen : 0 < x.length := List.length_pos.mpr hne
    have h6' : ¬ (x ++ c).length < 6 := by
      rw [List.length_append]
      omega
    have hD' : ¬ (x ++ c).getD 0 0 = 211 := by
      rwa [List.getD_append _ _ _ 0 hlen]
    have htail : (x ++ c).tail = x.tail ++ c := by
      cases x with
      | nil => exact absurd rfl hne
      | cons y ys => simp
    rw [scanBuf_eq_skip x h6 hD, scanBuf_eq_skip (x ++ c) h6' hD', htail]
    exact ih
  | case3 x h6 hD hL ih =>
    have hx6 : 6 ≤ x.length := Nat.le_of_not_lt h6
    have htot : declaredPayloadLen x + 6 ≤ x.length := Nat.le_of_not_lt hL
    have h6' : ¬ (x ++ c).length < 6 := by
      rw [List.length_append]
      omega
    have hD' : (x ++ c).getD 0 0 = 211 := by
      rwa [List.getD_append _ _ _ 0 (by omega)]
    have hdpl : declaredPayloadLen (x ++ c) = declaredPayloadLen x := by
      unfold declaredPayloadLen
      rw [List.getD_append _ _ _ 1 (by omega), List.getD_append _ _ _ 2 (by omega)]
    have hmid : frameMsgId (x ++ c) = frameMsgId x := by
      unfold frameMsgId
      rw [List.getD_append _ _ _ 3 (by omega), List.getD_append _ _ _ 4 (by omega)]
    have hL' : ¬ (x ++ c).length < declaredPayloadLen (x ++ c) + 6 := by
      rw [hdpl, List.length_append]
      omega
    have htake : (x ++ c).take (declaredPayloadLen x + 6) =
        x.take (declaredPayloadLen x + 6) :=
      List.take_append_of_le_length htot
    have hdrop : (x ++ c).drop (declaredPayloadLen x + 6) =
        x.drop (declaredPayloadLen x + 6) ++ c :=
      List.drop_append_of_le_length htot
    rw [scanBuf_eq_complete (x ++ c) h6' hD' hL', scanBuf_eq_complete x h6 hD hL,
      hdpl, hmid, htake, hdrop, ih]
    simp

/-- Buffers that agree after trimming leading garbage decode to the same
messages once any continuation is appended. -/
theorem scanBuf_msgs_congr (x y z : List Nat) (h : dropGarbage x = dropGarbage y) :
    (scanBuf (x ++ z)).2 = (scanBuf (y ++ z)).2 := by
  have hx := (scanBuf_dropGarbage (x ++ z)).1
  have hy := (scanBuf_dropGarbage (y ++ z)).1
  rw [dropGarbage_append x z, h, ← dropGarbage_append y z] at hx
  rw [hx]
  exact hy.symm

/-- Feeding chunks through repeated `_process_buffer` calls, starting from a
quiescent carry, decodes exactly the messages of one scan of the carry
followed by the joined chunks; the final carry is quiescent again. -/
theorem processChunks_spec (chunks : List (List Nat)) :
    ∀ carry : List Nat, scanBuf carry = (carry, []) →
      (processChunks chunks carry).2 = (scanBuf (carry ++ chunks.flatten)).2 ∧
        scanBuf ((processChunks chunks carry).1) = ((processChunks chunks carry).1, []) := by
  induction chunks with
  | nil =>
    intro carry hq
    constructor
    · rw [processChunks, List.flatten_nil, List.append_nil, hq]
    · rw [processChunks]
      exact hq
  | cons c cs ih =>
    intro carry hq
    have hq1 : scanBuf ((processBuffer (carry ++ c)).1) = ((processBuffer (carry ++ c)).1, []) := by
      rw [processBuffer]
      exact scanBuf_rem_quiescent (dropGarbage (carry ++ c))
    obtain ⟨ihm, ihq⟩ := ih (processBuffer (carry ++ c)).1 hq1
    constructor
    · rw [processChunks]
      rw [List.flatten_cons, ← List.append_assoc, scanBuf_append (carry ++ c) cs.flatten]
      have hm1 : (processBuffer (carry ++ c)).2 = (scanBuf (carry ++ c)).2 := by
        rw [processBuffer]
        exact ((scanBuf_dropGarbage (carry ++ c)).1).symm
      have hcongr : (scanBuf ((processBuffer (carry ++ c)).1 ++ cs.flatten)).2 =
          (scanBuf ((scanBuf (carry ++ c)).1 ++ cs.flatten)).2 := by
        apply scanBuf_msgs_congr
        rw [processBuffer]
        exact ((scanBuf_dropGarbage (carry ++ c)).2).symm
      rw [ihm, hcongr, hm1]
    · rw [processChunks]
      exact ihq

/-- C1: buffer-boundary independence of the frame decoder.  For every byte
stream and every way of splitting it into consecutive chunks, feeding the
chunks through repeated `_process_buffer` calls (each call's remaining buffer
prepended to the next chunk) yields the same ordered list of decoded messages
(ids, lengths and satellite counts alike) as one `_process_buffer` call over
the whole concatenated stream: no frame is lost or duplicated at a chunk
boundary. -/
theorem process_buffer_chunk_independence (chunks : List (List Nat)) :
    (processChunks chunks []).2 = (processBuffer chunks.flatten).2 := by
  have hq : scanBuf ([] : List Nat) = (([] : List Nat), []) := scanBuf_eq_short [] (by simp)
  have h := (processChunks_spec chunks [] hq).1
  rw [h, List.nil_append, processBuffer]
  exact (scanBuf_dropGarbage chunks.flatten).1

/-- C6: incomplete-frame retention.  A buffer positioned at a 0xD3 marker whose
declared payload length leaves fewer than `length + 6` bytes available emits
no message and is returned whole as the remaining buffer. -/
theorem incomplete_frame_retention (buf : List Nat)
    (hmark : buf.getD 0 0 = 211)
    (hshort : buf.length < declaredPayloadLen buf + 6) :
    processBuffer buf = (buf, []) := by
  rw [processBuffer, dropGarbage_of_marker buf hmark]
  by_cases h6 : buf.length < 6
  · exact scanBuf_eq_short buf h6
  · exact scanBuf_eq_incomplete buf h6 hmark hshort

/-- A frame with declared payload length 20 of which only 18 bytes have
arrived: the 0xD3 marker, the two length bytes declaring 20, and 15 more
payload bytes. -/
def buf18 : List Nat := [211, 0, 20, 0, 0, 0, 0, 0, 0, 0, 0, 0, 0, 0, 0, 0, 0, 0]

theorem incomplete_frame_retention_witness :
    buf18.getD 0 0 = 211 ∧ buf18.length = 18 ∧ declaredPayloadLen buf18 = 20 ∧
      processBuffer buf18 = (buf18, []) :=
  ⟨by decide, by decide, by decide,
    incomplete_frame_retention buf18 (by decide) (by decide)⟩

/-- A trimmed buffer on which the scan finds no message is returned whole. -/
theorem scanBuf_of_quiescent_trimmed (g : List Nat) (hg : dropGarbage g = g)
    (hmsgs : (scanBuf g).2 = []) : scanBuf g = (g, []) := by
  by_cases h6 : g.length < 6
  · exact scanBuf_eq_short g h6
  · by_cases hD : g.getD 0 0 = 211
    · by_cases hL : g.length < declaredPayloadLen g + 6
      · exact scanBuf_eq_incomplete g h6 hD hL
      · rw [scanBuf_eq_complete g h6 hD hL] at hmsgs
        simp at hmsgs
    · have hne : g ≠ [] := by
        intro hx
        rw [hx] at h6
        simp at h6
      have hlt : (dropGarbage g.tail).length < g.length := by
        have h1 := dropGarbage_length_le g.tail
        have h2 : g.tail.length = g.length - 1 := List.length_tail g
        omega
      rw [← dropGarbage_tail g hne hD, hg] at hlt
      exact absurd rfl (Nat.ne_of_lt hlt)

/-- C7: decode idempotence on a quiescent buffer.  When `_process_buffer`
finds no complete frame, running it again on the returned remaining buffer
with no new data returns that buffer unchanged and no messages. -/
theorem process_buffer_idempotent_quiescent (buf : List Nat)
    (h : (processBuffer buf).2 = []) :
    processBuffer ((processBuffer buf).1) = ((processBuffer buf).1, []) := by
  simp only [processBuffer] at h ⊢
  have hs := scanBuf_of_quiescent_trimmed (dropGarbage buf) (dropGarbage_idem buf) h
  rw [hs]
  show scanBuf (dropGarbage (dropGarbage buf)) = (dropGarbage buf, [])
  rw [dropGarbage_idem buf]
  exact hs

theorem process_buffer_idempotent_quiescent_witness :
    (processBuffer [211]).2 = [] ∧
      processBuffer ((processBuffer [211]).1) = ((processBuffer [211]).1, []) := by
  have h : processBuffer [211] = ([211], []) := by
    rw [processBuffer, dropGarbage_of_marker [211] rfl]
    exact scanBuf_eq_short [211] (by decide)
  exact ⟨by rw [h], process_buffer_idempotent_quiescent [211] (by rw [h])⟩

/-- Spec-side formula (spec §4.2, legacy observation format): the 5-bit field
located `off` bits into the payload, read from a big-endian interpretation of
the payload's leading 8 bytes. -/
def specLegacyCountField (payload : List Nat) (off : Nat) : Nat :=
  (bytesToNatBE (payload.take 8) >>> (64 - off - 5)) &&& 31

/-- C2: legacy observation satellite count.  For every message whose id is in
1001-1004 or 1009-1012 and whose frame is long enough (at least 11 bytes),
the extractor returns the 5-bit field located 55 bits (GPS family) or 52 bits
(GLONASS family) into the payload, read big-endian from the payload's leading
8 bytes; a decoded 0 yields absent and the value never exceeds 31. -/
theorem legacy_obs_satellite_count_spec (message : List Nat) (msgId : Nat)
    (hid : msgId ∈ legacyObsIds) (hlen : 11 ≤ message.length) :
    parseMsmSatelliteCount message msgId =
      (if specLegacyCountField (message.drop 3)
            (if 1009 ≤ msgId ∧ msgId ≤ 1012 then 52 else 55) = 0 then none
       else some (specLegacyCountField (message.drop 3)
            (if 1009 ≤ msgId ∧ msgId ≤ 1012 then 52 else 55))) ∧
      specLegacyCountField (message.drop 3)
          (if 1009 ≤ msgId ∧ msgId ≤ 1012 then 52 else 55) ≤ 31 := by
  have h10 : ¬ message.length < 10 := by omega
  have hplen : ¬ ((message.drop 3).take 8).length < 8 := by
    simp only [List.length_take, List.length_drop]
    omega
  refine ⟨?_, Nat.and_le_right⟩
  simp only [parseMsmSatelliteCount, if_pos hid, parseLegacyObsSatelliteCount,
    if_neg h10, if_neg hplen, specLegacyCountField]
  have h64 : (bytesToNatBE ((message.drop 3).take 8) >>>
      (64 - (if 1009 ≤ msgId ∧ msgId ≤ 1012 then 52 else 55) - 5)) &&& 31 ≤ 64 :=
    le_trans Nat.and_le_right (by norm_num)
  rw [if_pos h64]
  rcases Nat.eq_zero_or_pos ((bytesToNatBE ((message.drop 3).take 8) >>>
      (64 - (if 1009 ≤ msgId ∧ msgId ≤ 1012 then 52 else 55) - 5)) &&& 31) with h0 | hpos
  · rw [h0]
    simp
  · rw [if_pos hpos, if_neg (Nat.pos_iff_ne_zero.mp hpos)]

/-- A synthetic id-1003 frame: 8-byte payload whose first 12 bits are the
message number 1003 and whose 5-bit field at payload bit offset 55 holds 9,
followed by a 3-byte checksum. -/
def frame1003 : List Nat := [211, 0, 8, 62, 176, 0, 0, 0, 0, 0, 144, 0, 0, 0]

theorem legacy_obs_satellite_count_spec_witness :
    1003 ∈ legacyObsIds ∧ 11 ≤ frame1003.length ∧
      parseMsmSatelliteCount frame1003 1003 = some 9 :=
  ⟨by decide, by decide,
    ((legacy_obs_satellite_count_spec frame1003 1003 (by decide) (by decide)).1).trans
      (by decide)⟩

/-- Membership of a message id in one of the five MSM windows of
`msm_ranges`. -/
def msmWindow (msgId : Nat) : Prop :=
  (1074 ≤ msgId ∧ msgId ≤ 1077) ∨ (1084 ≤ msgId ∧ msgId ≤ 1087) ∨
    (1094 ≤ msgId ∧ msgId ≤ 1097) ∨ (1114 ≤ msgId ∧ msgId ≤ 1117) ∨
    (1124 ≤ msgId ∧ msgId ≤ 1127)

instance (msgId : Nat) : Decidable (msmWindow msgId) := by
  unfold msmWindow
  infer_instance

/-- C3 (amended): MSM satellite count.  For every message whose id lies in one
of the MSM windows, the extractor returns the number of set bits in the 64-bit
big-endian value formed by bytes 11-18 of the full frame; it returns absent
when the frame is shorter than 20 bytes (one byte more than the 19 needed to
contain the mask), and absent when the computed count is zero. -/
theorem msm_satellite_count_spec (message : List Nat) (msgId : Nat)
    (hid : msmWindow msgId) :
    parseMsmSatelliteCount message msgId =
      (if message.length < 20 then none
       else if popCount (bytesToNatBE ((message.drop 11).take 8)) = 0 then none
       else some (popCount (bytesToNatBE ((message.drop 11).take 8)))) := by
  have hnotlegacy : ¬ msgId ∈ legacyObsIds := by
    have : 1074 ≤ msgId := by
      rcases hid with ⟨h, _⟩ | ⟨h, _⟩ | ⟨h, _⟩ | ⟨h, _⟩ | ⟨h, _⟩ <;> omega
    simp only [legacyObsIds, List.mem_cons, List.not_mem_nil, or_false]
    omega
  have hany : (msmRanges.any (fun p => decide (p.1 ≤ msgId ∧ msgId ≤ p.2))) = true := by
    simp only [msmRanges, List.any_cons, List.any_nil, Bool.or_eq_true, decide_eq_true_eq,
      Bool.or_false]
    exact hid
  simp only [parseMsmSatelliteCount, if_neg hnotlegacy, hany]
  by_cases h14 : message.length < 14
  · have h20 : message.length < 20 := by omega
    rw [if_pos (Or.inr h14), if_pos h20]
  · rw [if_neg (by simp [h14])]
    by_cases h20 : message.length < 20
    · rw [if_pos h20, if_pos h20]
    · rw [if_neg h20, if_neg h20]
      rcases Nat.eq_zero_or_pos (popCount (bytesToNatBE ((message.drop 11).take 8))) with h0 | hp
      · rw [h0]
        simp
      · rw [if_pos hp, if_neg (Nat.pos_iff_ne_zero.mp hp)]

/-- A 19-byte id-1077 frame (declared payload length 13): its bytes 11-18
exist and hold a mask with one set bit, yet the extractor returns absent
because of the 20-byte check at ntrip_client.py line 281. -/
def msmFrame19 : List Nat := [211, 0, 13, 67, 80, 0, 0, 0, 0, 0, 0, 128, 0, 0, 0, 0, 0, 0, 0]

/-- C3 counterexample: the claim as stated is false.  `msmFrame19` is not
shorter than the 19 bytes needed to contain the mask (bytes 11-18) and its
mask has a set bit, yet `_parse_msm_satellite_count` returns absent rather
than the mask's bit count. -/
theorem msm_min_length_counterexample :
    msmFrame19.length = 19 ∧ msmWindow 1077 ∧
      popCount (bytesToNatBE ((msmFrame19.drop 11).take 8)) = 1 ∧
      parseMsmSatelliteCount msmFrame19 1077 = none := by
  refine ⟨by decide, by decide, by decide, by decide⟩

/-- A 20-byte id-1077 frame whose satellite mask holds exactly 7 set bits. -/
def msmFrame7bits : List Nat :=
  [211, 0, 14, 67, 80, 0, 0, 0, 0, 0, 0, 127, 0, 0, 0, 0, 0, 0, 0, 0]

/-- A 20-byte id-1077 frame whose satellite mask is all zero. -/
def msmFrameZeroMask : List Nat :=
  [211, 0, 14, 67, 80, 0, 0, 0, 0, 0, 0, 0, 0, 0, 0, 0, 0, 0, 0, 0]

theorem msm_satellite_count_spec_witness :
    msmWindow 1077 ∧ parseMsmSatelliteCount msmFrame7bits 1077 = some 7 ∧
      parseMsmSatelliteCount msmFrameZeroMask 1077 = none :=
  ⟨by decide,
    (msm_satellite_count_spec msmFrame7bits 1077 (by decide)).trans (by decide),
    (msm_satellite_count_spec msmFrameZeroMask 1077 (by decide)).trans (by decide)⟩

/-- Is `b` a UTF-8 continuation byte (0x80-0xBF)? -/
def isUtf8Cont (b : Nat) : Bool := 128 ≤ b && b ≤ 191

/-- The allowed range of the byte following a 3-byte lead `b0`: 0xE0 excludes
overlong encodings, 0xED excludes surrogates. -/
def validCont3 (b0 b1 : Nat) : Bool :=
  if b0 = 224 then 160 ≤ b1 && b1 ≤ 191
  else if b0 = 237 then 128 ≤ b1 && b1 ≤ 159
  else isUtf8Cont b1

/-- The allowed range of the byte following a 4-byte lead `b0`: 0xF0 excludes
overlong encodings, 0xF4 caps the code point at U+10FFFF. -/
def validCont4 (b0 b1 : Nat) : Bool :=
  if b0 = 240 then 144 ≤ b1 && b1 ≤ 191
  else if b0 = 244 then 128 ≤ b1 && b1 ≤ 143
  else isUtf8Cont b1

/-- Fuel-driven core of the ignore-errors UTF-8 decode: each step consumes at
least one byte of input and one unit of fuel, so any fuel at least the byte
count gives the decode itself (`pyDecodeUtf8IgnoreFuel_congr`). -/
def pyDecodeUtf8IgnoreFuel : Nat → List Nat → List Nat
  | 0, _ => []
  | _ + 1, [] => []
  | fuel + 1, b0 :: r0 =>
    if b0 ≤ 127 then b0 :: pyDecodeUtf8IgnoreFuel fuel r0
    else if 194 ≤ b0 ∧ b0 ≤ 223 then
      match r0 with
      | b1 :: r1 =>
        if isUtf8Cont b1 then
          (((b0 &&& 31) <<< 6) ||| (b1 &&& 63)) :: pyDecodeUtf8IgnoreFuel fuel r1
        else pyDecodeUtf8IgnoreFuel fuel r0
      | [] => []
    else if 224 ≤ b0 ∧ b0 ≤ 239 then
      match r0 with
      | b1 :: b2 :: r2 =>
        if validCont3 b0 b1 && isUtf8Cont b2 then
          (((b0 &&& 15) <<< 12) ||| ((b1 &&& 63) <<< 6) ||| (b2 &&& 63)) ::
            pyDecodeUtf8IgnoreFuel fuel r2
        else pyDecodeUtf8IgnoreFuel fuel r0
      | _ => pyDecodeUtf8IgnoreFuel fuel r0
    else if 240 ≤ b0 ∧ b0 ≤ 244 then
      match r0 with
      | b1 :: b2 :: b3 :: r3 =>
        if validCont4 b0 b1 && isUtf8Cont b2 && isUtf8Cont b3 then
          (((b0 &&& 7) <<< 18) ||| ((b1 &&& 63) <<< 12) ||| ((b2 &&& 63) <<< 6) |||
              (b3 &&& 63)) :: pyDecodeUtf8IgnoreFuel fuel r3
        else pyDecodeUtf8IgnoreFuel fuel r0
      | _ => pyDecodeUtf8IgnoreFuel fuel r0
    else pyDecodeUtf8IgnoreFuel fuel r0

/-- Python `bytes.decode('utf-8', errors='ignore')` (ntrip_client.py line 82),
as the sequence of decoded code points: well-formed sequences are decoded and
every byte of an ill-formed one is dropped.  Under the ignore handler the
output does not depend on how CPython groups the dropped bytes into error
ranges: a maximal subpart is a lead byte followed only by continuation bytes,
and a continuation byte can never start a well-formed sequence, so dropping
one byte after a failed lead and retrying yields the same output. -/
def pyDecodeUtf8Ignore (d : List Nat) : List Nat :=
  pyDecodeUtf8IgnoreFuel d.length d

theorem pyDecodeUtf8IgnoreFuel_succ_cons (fuel : Nat) (b0 : Nat) (r0 : List Nat) :
    pyDecodeUtf8IgnoreFuel (fuel + 1) (b0 :: r0) =
      (if b0 ≤ 127 then b0 :: pyDecodeUtf8IgnoreFuel fuel r0
      else if 194 ≤ b0 ∧ b0 ≤ 223 then
        match r0 with
        | b1 :: r1 =>
          if isUtf8Cont b1 then
            (((b0 &&& 31) <<< 6) ||| (b1 &&& 63)) :: pyDecodeUtf8IgnoreFuel fuel r1
          else pyDecodeUtf8IgnoreFuel fuel r0
        | [] => []
      else if 224 ≤ b0 ∧ b0 ≤ 239 then
        match r0 with
        | b1 :: b2 :: r2 =>
          if validCont3 b0 b1 && isUtf8Cont b2 then
            (((b0 &&& 15) <<< 12) ||| ((b1 &&& 63) <<< 6) ||| (b2 &&& 63)) ::
              pyDecodeUtf8IgnoreFuel fuel r2
          else pyDecodeUtf8IgnoreFuel fuel r0
        | _ => pyDecodeUtf8IgnoreFuel fuel r0
      else if 240 ≤ b0 ∧ b0 ≤ 244 then
        match r0 with
        | b1 :: b2 :: b3 :: r3 =>
          if validCont4 b0 b1 && isUtf8Cont b2 && isUtf8Cont b3 then
            (((b0 &&& 7) <<< 18) ||| ((b1 &&& 63) <<< 12) ||| ((b2 &&& 63) <<< 6) |||
                (b3 &&& 63)) :: pyDecodeUtf8IgnoreFuel fuel r3
          else pyDecodeUtf8IgnoreFuel fuel r0
        | _ => pyDecodeUtf8IgnoreFuel fuel r0
      else pyDecodeUtf8IgnoreFuel fuel r0) := rfl

theorem pyDecodeUtf8IgnoreFuel_congr : ∀ f g d, d.length ≤ f → d.length ≤ g →
    pyDecodeUtf8IgnoreFuel f d = pyDecodeUtf8IgnoreFuel g d := by
  intro f
  induction f with
  | zero =>
    intro g d hf hg
    have hd : d = [] := List.length_eq_zero.mp (Nat.le_zero.mp hf)
    subst hd
    cases g <;> rfl
  | succ f ih =>
    intro g d hf hg
    cases d with
    | nil => cases g <;> rfl
    | cons b0 r0 =>
      cases g with
      | zero => simp at hg
      | succ g =>
        have hf0 : r0.length ≤ f := by
          simp only [List.length_cons] at hf
          omega
        have hg0 : r0.length ≤ g := by
          simp only [List.length_cons] at hg
          omega
        rw [pyDecodeUtf8IgnoreFuel_succ_cons, pyDecodeUtf8IgnoreFuel_succ_cons]
        by_cases h1 : b0 ≤ 127
        · rw [if_pos h1, if_pos h1, ih g r0 hf0 hg0]
        · rw [if_neg h1, if_neg h1]
          by_cases h2 : 194 ≤ b0 ∧ b0 ≤ 223
          · rw [if_pos h2, if_pos h2]
            cases r0 with
            | nil => rfl
            | cons b1 r1 =>
              dsimp only
              have hf1 : r1.length ≤ f := by
                simp only [List.length_cons] at hf0
                omega
              have hg1 : r1.length ≤ g := by
                simp only [List.length_cons] at hg0
                omega
              by_cases hc : isUtf8Cont b1 = true
              · rw [if_pos hc, if_pos hc, ih g r1 hf1 hg1]
              · rw [if_neg hc, if_neg hc, ih g (b1 :: r1) hf0 hg0]
          · rw [if_neg h2, if_neg h2]
            by_cases h3 : 224 ≤ b0 ∧ b0 ≤ 239
            · rw [if_pos h3, if_pos h3]
              match r0, hf0, hg0 with
              | [], _, _ =>
                dsimp only
                exact ih g [] (by simp) (by simp)
              | [b1], hf0, hg0 =>
                dsimp only
                exact ih g [b1] hf0 hg0
              | b1 :: b2 :: r2, hf0, hg0 =>
                dsimp only
                have hf2 : r2.length ≤ f := by
                  simp only [List.length_cons] at hf0
                  omega
                have hg2 : r2.length ≤ g := by
                  simp only [List.length_cons] at hg0
                  omega
                by_cases hc : (validCont3 b0 b1 && isUtf8Cont b2) = true
                · rw [if_pos hc, if_pos hc, ih g r2 hf2 hg2]
                · rw [if_neg hc, if_neg hc, ih g (b1 :: b2 :: r2) hf0 hg0]
            · rw [if_neg h3, if_neg h3]
              by_cases h4 : 240 ≤ b0 ∧ b0 ≤ 244
              · rw [if_pos h4, if_pos h4]
                match r0, hf0, hg0 with
                | [], _, _ =>
                  dsimp only
                  exact ih g [] (by simp) (by simp)
                | [b1], hf0, hg0 =>
                  dsimp only
                  exact ih g [b1] hf0 hg0
                | [b1, b2], hf0, hg0 =>
                  dsimp only
                  exact ih g [b1, b2] hf0 hg0
                | b1 :: b2 :: b3 :: r3, hf0, hg0 =>
                  dsimp only
                  have hf3 : r3.length ≤ f := by
                    simp only [List.length_cons] at hf0
                    omega
                  have hg3 : r3.length ≤ g := by
                    simp only [List.length_cons] at hg0
                    omega
                  by_cases hc : (validCont4 b0 b1 && isUtf8Cont b2 && isUtf8Cont b3) = true
                  · rw [if_pos hc, if_pos hc, ih g r3 hf3 hg3]
                  · rw [if_neg hc, if_neg hc, ih g (b1 :: b2 :: b3 :: r3) hf0 hg0]
              · rw [if_neg h4, if_neg h4, ih g r0 hf0 hg0]

/-- On ASCII input the ignore-errors UTF-8 decode is the identity. -/
theorem pyDecodeUtf8Ignore_ascii : ∀ d : List Nat, (∀ b ∈ d, b ≤ 127) →
    pyDecodeUtf8Ignore d = d := by
  have haux : ∀ (f : Nat) (d : List Nat), d.length ≤ f → (∀ b ∈ d, b ≤ 127) →
      pyDecodeUtf8IgnoreFuel f d = d := by
    intro f
    induction f with
    | zero =>
      intro d hf _
      have hd : d = [] := List.length_eq_zero.mp (Nat.le_zero.mp hf)
      subst hd
      rfl
    | succ f ih =>
      intro d hf h
      cases d with
      | nil => rfl
      | cons b r =>
        have hb : b ≤ 127 := h b (List.mem_cons_self b r)
        rw [pyDecodeUtf8IgnoreFuel_succ_cons, if_pos hb,
          ih r (by simp only [List.length_cons] at hf; omega)
            (fun x hx => h x (List.mem_cons_of_mem b hx))]
  exact fun d h => haux d.length d (Nat.le_refl _) h

example : pyDecodeUtf8Ignore [50, 211, 48, 48] = [50, 48, 48] := by decide

/-- The code points Python `str.isspace()` holds for — the set `str.strip()`
removes: 0x09-0x0D, 0x1C-0x20, NEL, NBSP, Ogham space, 0x2000-0x200A, the
line and paragraph separators, narrow and medium spaces, and the ideographic
space. -/
def isPySpace (cp : Nat) : Bool :=
  (9 ≤ cp && cp ≤ 13) || (28 ≤ cp && cp ≤ 32) || cp == 133 || cp == 160 ||
    cp == 5760 || (8192 ≤ cp && cp ≤ 8202) || cp == 8232 || cp == 8233 ||
    cp == 8239 || cp == 8287 || cp == 12288

/-- Python `s.strip()`: drop whitespace code points from both ends. -/
def pyStrip (l : List Nat) : List Nat :=
  ((l.dropWhile isPySpace).reverse.dropWhile isPySpace).reverse

/-- The first response line, `data_str.split('\n')[0].strip()`
(ntrip_client.py lines 82-83): decode the initial read with ignored errors,
take everything before the first newline, strip. -/
def firstLine (d : List Nat) : List Nat :=
  pyStrip ((pyDecodeUtf8Ignore d).takeWhile (fun cp => !(cp == 10)))

def listStartsWith : List Nat → List Nat → Bool
  | [], _ => true
  | _ :: _, [] => false
  | p :: ps, x :: xs => p == x && listStartsWith ps xs

/-- Python `bytes.find(pat)`: the index of the first full occurrence of `pat`,
`none` when absent. -/
def findPattern (pat : List Nat) : List Nat → Option Nat
  | [] => if listStartsWith pat [] then some 0 else none
  | x :: xs =>
    if listStartsWith pat (x :: xs) then some 0
    else (findPattern pat xs).map (fun i => i + 1)

/-- Python `pat in l` on byte strings. -/
def containsSeq (pat l : List Nat) : Bool :=
  (findPattern pat l).isSome

/-- The two setup-failure modes of the handshake check in
`NTRIPClient.connect` (ntrip_client.py lines 74-91). -/
inductive ConnectError where
  | emptyResponse : ConnectError
  | rejected : List Nat → ConnectError
deriving DecidableEq, Repr

/-- The handshake phase of `NTRIPClient.connect` (ntrip_client.py lines
70-114) as a function of the initial read.  An empty initial read is the
"Server closed connection without sending response" failure; when the
UTF-8-decoded (errors ignored) first line lacks the literal substring "200"
(code points 50, 48, 48) the result is the "NTRIP server returned" failure
carrying that stripped first line; on acceptance the bytes after the
end-of-headers marker (searched on the raw bytes, as in the source) seed the
stream buffer. -/
def connectInitial (initialData : List Nat) : Except ConnectError (List Nat) :=
  if initialData = [] then .error .emptyResponse
  else if containsSeq [50, 48, 48] (firstLine initialData) = true then
    let headerEnd : Option Nat :=
      match findPattern [13, 10, 13, 10] initialData with
      | some i => some (i + 4)
      | none => (findPattern [10, 10] initialData).map (fun i => i + 2)
    match headerEnd with
    | some k => if 0 < k then .ok (initialData.drop k) else .ok initialData
    | none => .ok initialData
  else .error (.rejected (firstLine initialData))

/-- C4: handshake acceptance.  `connect` accepts the handshake if and only if
the literal substring "200" occurs in the (stripped) first line of a
non-empty initial read; an empty initial read is a setup failure, and any
other first line is a setup failure carrying that line as diagnostic text,
produced before any message is yielded. -/
theorem connect_handshake_accepts_iff_200 (d : List Nat) :
    ((∃ buffer, connectInitial d = .ok buffer) ↔
        (d ≠ [] ∧ containsSeq [50, 48, 48] (firstLine d) = true)) ∧
      connectInitial [] = .error .emptyResponse ∧
      (d ≠ [] → containsSeq [50, 48, 48] (firstLine d) = false →
        connectInitial d = .error (.rejected (firstLine d))) := by
  refine ⟨⟨?_, ?_⟩, by simp [connectInitial], ?_⟩
  · rintro ⟨buffer, hb⟩
    by_cases hd : d = []
    · subst hd
      simp [connectInitial] at hb
    · refine ⟨hd, ?_⟩
      by_cases hc : containsSeq [50, 48, 48] (firstLine d) = true
      · exact hc
      · rw [connectInitial, if_neg hd, if_neg hc] at hb
        exact absurd hb (by simp)
  · rintro ⟨hd, hc⟩
    rw [connectInitial, if_neg hd, if_pos hc]
    cases hfe : findPattern [13, 10, 13, 10] d with
    | some i =>
      simp only [hfe]
      exact ⟨d.drop (i + 1 + 3), by simp⟩
    | none =>
      cases hfe2 : findPattern [10, 10] d with
      | some i =>
        simp only [hfe, hfe2, Option.map_some]
        exact ⟨d.drop (i + 2), by simp⟩
      | none =>
        simp only [hfe, hfe2, Option.map_none]
        exact ⟨d, rfl⟩
  · intro hd hc
    rw [connectInitial, if_neg hd, if_neg (by simp [hc])]

/-- The bytes of "HTTP/1.0 401 Unauthorized" followed by CRLF CRLF. -/
def d401 : List Nat :=
  [72, 84, 84, 80, 47, 49, 46, 48, 32, 52, 48, 49, 32, 85, 110, 97, 117, 116,
   104, 111, 114, 105, 122, 101, 100, 13, 10, 13, 10]

/-- The bytes of "HTTP/1.0 401 Unauthorized". -/
def line401 : List Nat :=
  [72, 84, 84, 80, 47, 49, 46, 48, 32, 52, 48, 49, 32, 85, 110, 97, 117, 116,
   104, 111, 114, 105, 122, 101, 100]

theorem connect_handshake_accepts_iff_200_witness :
    connectInitial d401 = .error (.rejected line401) ∧
      (∃ buffer, connectInitial [50, 211, 48, 48] = .ok buffer) :=
  ⟨((connect_handshake_accepts_iff_200 d401).2.2 (by decide) (by decide)).trans
      (congrArg (fun l => Except.error (ConnectError.rejected l))
        (by decide : firstLine d401 = line401)),
    ((connect_handshake_accepts_iff_200 [50, 211, 48, 48]).1).mpr
      ⟨by decide, by decide⟩⟩

/-- The failure signals a transport session (`NTRIPClient.connect`) can end
with: one constructor per raise site in ntrip_client.py (lines 48, 76, 91,
119, 151 and 156), carrying the interpolated part of the exception text where
there is one. -/
inductive TransportFailure where
  | connectFailed : String → TransportFailure
  | emptyResponse : TransportFailure
  | handshakeRejected : String → TransportFailure
  | handshakeTimeout : TransportFailure
  | readTimeout : TransportFailure
  | streamClosed : TransportFailure
deriving DecidableEq, Repr

/-- The error text `RTCMCoordinator._run` records for each failure
(coordinator.py lines 156-170): the read timeout propagates as
`asyncio.TimeoutError` and becomes the fixed "Connection timeout"; every
other failure is a `ConnectionError` recorded as `str(e)`, the text it was
raised with in ntrip_client.py. -/
def supervisorErrorText : TransportFailure → String
  | .connectFailed detail => "Failed to connect to " ++ detail
  | .emptyResponse => "Server closed connection without sending response"
  | .handshakeRejected line => "NTRIP server returned: " ++ line
  | .handshakeTimeout => "Timeout waiting for HTTP response (10s)"
  | .readTimeout => "Connection timeout"
  | .streamClosed => "Stream closed by server"

/-- The supervisor fields a transport failure mutates (coordinator.py lines
156-170). -/
structure SupervisorState where
  connected : Bool
  errorMessage : Option String
deriving DecidableEq, Repr

/-- One failure handler of `RTCMCoordinator._run`: mark disconnected and
record the error text. -/
def handleFailure (s : SupervisorState) (f : TransportFailure) : SupervisorState :=
  { s with connected := false, errorMessage := some (supervisorErrorText f) }

/-- The observable actions of the supervisor loop. -/
inductive SupervisorEvent where
  | connectAttempt : SupervisorEvent
  | notifyListeners : SupervisorEvent
  | sleepDelay : Nat → SupervisorEvent
deriving DecidableEq, Repr

/-- The fixed reconnect delay, `await asyncio.sleep(5)` (coordinator.py line
173). -/
def reconnectDelaySeconds : Nat := 5

/-- `RTCMCoordinator._run` (coordinator.py lines 98-173) over a finite prefix
of transport sessions that each end in a failure, with no stop request during
the prefix: every iteration starts one connection attempt; its failure is
handled (state update, then listener notification) and followed by the fixed
sleep, after which the loop runs again. -/
def runLoop (s : SupervisorState) :
    List TransportFailure → SupervisorState × List SupervisorEvent
  | [] => (s, [])
  | f :: fs =>
    ((runLoop (handleFailure s f) fs).1,
      [SupervisorEvent.connectAttempt, SupervisorEvent.notifyListeners,
          SupervisorEvent.sleepDelay reconnectDelaySeconds] ++
        (runLoop (handleFailure s f) fs).2)

/-- The number of connection attempts in a trace. -/
def countAttempts (evs : List SupervisorEvent) : Nat :=
  evs.countP (fun e => match e with | SupervisorEvent.connectAttempt => true | _ => false)

/-- C5: supervisor retry behaviour.  Whenever a transport session ends with
any failure and stop has not been requested, the loop marks disconnected,
records the (always non-empty) error text, notifies listeners, waits the
fixed non-zero delay, and starts exactly one new connection attempt; the loop
consumes every failure of an arbitrary failure sequence without terminating,
so only a stop request or cancellation ends it. -/
theorem supervisor_retry_on_failure :
    (∀ (s : SupervisorState) (f : TransportFailure),
        (handleFailure s f).connected = false ∧
          (handleFailure s f).errorMessage = some (supervisorErrorText f) ∧
          0 < (supervisorErrorText f).length) ∧
      0 < reconnectDelaySeconds ∧
      (∀ (s : SupervisorState) (fs : List TransportFailure),
        (runLoop s fs).2 =
            fs.flatMap (fun _ => [SupervisorEvent.connectAttempt,
              SupervisorEvent.notifyListeners,
              SupervisorEvent.sleepDelay reconnectDelaySeconds]) ∧
          countAttempts (runLoop s fs).2 = fs.length) := by
  refine ⟨?_, by decide, ?_⟩
  · intro s f
    refine ⟨rfl, rfl, ?_⟩
    cases f <;>
      simp only [supervisorErrorText, String.length_append] <;>
      first
        | decide
        | exact Nat.add_pos_left (by decide) _
  · intro s fs
    induction fs generalizing s with
    | nil => exact ⟨rfl, rfl⟩
    | cons f fs ih =>
      obtain ⟨ih1, ih2⟩ := ih (handleFailure s f)
      constructor
      · rw [runLoop]
        rw [ih1, List.flatMap_cons]
      · rw [runLoop]
        simp only [countAttempts, List.countP_append] at ih2 ⊢
        simp [List.countP_cons, ih2]
        omega

/-- Python list slicing `l[-k:]` (coordinator.py line 124): the last `k`
elements for `k > 0`; for `k = 0` the whole list (since `l[-0:]` is `l[0:]`). -/
def lastSlice (l : List Nat) (k : Nat) : List Nat :=
  if k = 0 then l else l.drop (l.length - k)

/-- Recording one observed message type (coordinator.py lines 120-124): a
known id leaves the list alone; a new id is appended, and the list is cut
back to its newest `maxTypes` entries when it grows past the cap.
`maxTypes` stands for MAX_MESSAGE_TYPES, which lives in const.py (not part of
the repository's source files); modelled from the spec: a positive "maximum
retained size". -/
def recordMessageType (maxTypes : Nat) (types : List Nat) (msgType : Nat) : List Nat :=
  if msgType ∈ types then types
  else if maxTypes < (types ++ [msgType]).length then lastSlice (types ++ [msgType]) maxTypes
  else types ++ [msgType]

theorem recordMessageType_step (maxTypes : Nat) (hmax : 0 < maxTypes) (types : List Nat)
    (t : Nat) (hnd : types.Nodup) (hlen : types.length ≤ maxTypes) :
    (recordMessageType maxTypes types t).Nodup ∧
      (recordMessageType maxTypes types t).length ≤ maxTypes ∧
      (t ∈ types → recordMessageType maxTypes types t = types) ∧
      (t ∉ types → (recordMessageType maxTypes types t).IsSuffix (types ++ [t])) := by
  by_cases hmem : t ∈ types
  · rw [recordMessageType, if_pos hmem]
    exact ⟨hnd, hlen, fun _ => rfl, fun h => absurd hmem h⟩
  · have happ : (types ++ [t]).Nodup := by
      rw [List.nodup_append]
      refine ⟨hnd, List.nodup_singleton t, ?_⟩
      intro a ha hb
      rw [List.mem_singleton] at hb
      subst hb
      exact hmem ha
    rw [recordMessageType, if_neg hmem]
    by_cases hover : maxTypes < (types ++ [t]).length
    · rw [if_pos hover, lastSlice, if_neg (by omega)]
      have hsuf : ((types ++ [t]).drop ((types ++ [t]).length - maxTypes)).IsSuffix
          (types ++ [t]) := List.drop_suffix _ _
      refine ⟨happ.sublist hsuf.sublist, ?_, fun hc => absurd hc hmem, fun _ => hsuf⟩
      simp only [List.length_drop]
      omega
    · rw [if_neg hover]
      exact ⟨happ, by omega, fun hc => absurd hc hmem, fun _ => List.suffix_rfl⟩

/-- C8: bounded distinct-id set.  Starting from the empty list, every
message-processing step keeps the observed-id list pairwise distinct and of
length at most the cap; a known id leaves the list unchanged, and a new id
yields a suffix of the appended list, so eviction removes oldest entries
first and preserves the relative order of the retained ones. -/
theorem message_types_bounded_nodup (maxTypes : Nat) (hmax : 0 < maxTypes) :
    (∀ (types : List Nat) (t : Nat), types.Nodup → types.length ≤ maxTypes →
        ((recordMessageType maxTypes types t).Nodup ∧
          (recordMessageType maxTypes types t).length ≤ maxTypes ∧
          (t ∈ types → recordMessageType maxTypes types t = types) ∧
          (t ∉ types → (recordMessageType maxTypes types t).IsSuffix (types ++ [t])))) ∧
      (∀ msgs : List Nat,
        (msgs.foldl (recordMessageType maxTypes) []).Nodup ∧
          (msgs.foldl (recordMessageType maxTypes) []).length ≤ maxTypes) := by
  have hfold : ∀ (msgs types : List Nat), types.Nodup → types.length ≤ maxTypes →
      ((msgs.foldl (recordMessageType maxTypes) types).Nodup ∧
        (msgs.foldl (recordMessageType maxTypes) types).length ≤ maxTypes) := by
    intro msgs
    induction msgs with
    | nil => exact fun types h1 h2 => ⟨h1, h2⟩
    | cons m ms ih =>
      intro types h1 h2
      obtain ⟨s1, s2, _, _⟩ := recordMessageType_step maxTypes hmax types m h1 h2
      exact ih _ s1 s2
  exact ⟨fun types t hnd hlen => recordMessageType_step maxTypes hmax types t hnd hlen,
    fun msgs => hfold msgs [] List.nodup_nil (by simp)⟩

theorem message_types_bounded_nodup_witness :
    0 < 2 ∧
      (([1076, 1077, 1005, 1077].foldl (recordMessageType 2) []).Nodup ∧
        ([1076, 1077, 1005, 1077].foldl (recordMessageType 2) []).length ≤ 2) :=
  ⟨by decide, (message_types_bounded_nodup 2 (by decide)).2 [1076, 1077, 1005, 1077]⟩

/-- The per-constellation satellite counters and their sum (coordinator.py
lines 34-39). -/
structure SatelliteCounts where
  gps : Nat
  glonass : Nat
  galileo : Nat
  beidou : Nat
  total : Nat
deriving DecidableEq, Repr

/-- `RTCMCoordinator.__init__` starts every counter at 0 (coordinator.py
lines 34-39). -/
def initialSatelliteCounts : SatelliteCounts := ⟨0, 0, 0, 0, 0⟩

/-- The satellite-total invariant: `total_satellites` equals the sum of the
four per-constellation counters. -/
def SatInvariant (s : SatelliteCounts) : Prop :=
  s.total = s.gps + s.glonass + s.galileo + s.beidou

/-- The satellite-count update of one message-processing step of
`RTCMCoordinator._run` (coordinator.py lines 126-149).  Python's
`if sat_count:` is falsy both for `None` and for 0, so only a present,
non-zero count mutates anything; when it does, one constellation counter
selected by id range is overwritten and `total_satellites` is recomputed as
the sum of the four counters.  Ids in 1114-1117 (QZSS MSM) match no branch. -/
def updateSatellites (s : SatelliteCounts) (msgType : Nat) (satCount : Option Nat) :
    SatelliteCounts :=
  match satCount with
  | none => s
  | some c =>
    if c = 0 then s
    else
      let s1 :=
        if 1001 ≤ msgType ∧ msgType ≤ 1004 then { s with gps := c }
        else if 1009 ≤ msgType ∧ msgType ≤ 1012 then { s with glonass := c }
        else if 1074 ≤ msgType ∧ msgType ≤ 1077 then { s with gps := c }
        else if 1084 ≤ msgType ∧ msgType ≤ 1087 then { s with glonass := c }
        else if 1094 ≤ msgType ∧ msgType ≤ 1097 then { s with galileo := c }
        else if 1124 ≤ msgType ∧ msgType ≤ 1127 then { s with beidou := c }
        else s
      { s1 with total := s1.gps + s1.glonass + s1.galileo + s1.beidou }

/-- C9: satellite-total invariant.  At supervisor initialization and after
every message-processing step (hence along any sequence of steps),
`total_satellites` equals `gps + glonass + galileo + beidou`. -/
theorem satellite_total_invariant :
    SatInvariant initialSatelliteCounts ∧
      (∀ (s : SatelliteCounts) (msgType : Nat) (satCount : Option Nat),
        SatInvariant s → SatInvariant (updateSatellites s msgType satCount)) ∧
      (∀ steps : List (Nat × Option Nat),
        SatInvariant (steps.foldl (fun s p => updateSatellites s p.1 p.2)
          initialSatelliteCounts)) := by
  have hinit : SatInvariant initialSatelliteCounts := rfl
  have hstep : ∀ (s : SatelliteCounts) (msgType : Nat) (satCount : Option Nat),
      SatInvariant s → SatInvariant (updateSatellites s msgType satCount) := by
    intro s msgType satCount h
    cases satCount with
    | none => exact h
    | some c =>
      rw [updateSatellites]
      by_cases hc : c = 0
      · rw [if_pos hc]
        exact h
      · rw [if_neg hc]
        rfl
  have hfold : ∀ (steps : List (Nat × Option Nat)) (s : SatelliteCounts),
      SatInvariant s →
        SatInvariant (steps.foldl (fun s p => updateSatellites s p.1 p.2) s) := by
    intro steps
    induction steps with
    | nil => exact fun s h => h
    | cons p ps ih => exact fun s h => ih _ (hstep s p.1 p.2 h)
  exact ⟨hinit, hstep, fun steps => hfold steps initialSatelliteCounts hinit⟩

theorem satellite_total_invariant_witness :
    SatInvariant ⟨3, 2, 1, 0, 6⟩ ∧
      SatInvariant (updateSatellites ⟨3, 2, 1, 0, 6⟩ 1077 (some 5)) :=
  ⟨rfl, satellite_total_invariant.2.1 ⟨3, 2, 1, 0, 6⟩ 1077 (some 5) rfl⟩

/-- The last-message summary of one processing step (coordinator.py lines
151-154); `if sat_count:` is falsy for `None` and 0. -/
def lastMessageSummary (msgType : Nat) (satCount : Option Nat) : String :=
  match satCount with
  | some c =>
    if c ≠ 0 then "RTCM " ++ toString msgType ++ " (" ++ toString c ++ " sats)"
    else "RTCM " ++ toString msgType
  | none => "RTCM " ++ toString msgType

/-- A 20-byte id-1114 (QZSS MSM) frame whose satellite mask has one set bit. -/
def qzssFrame : List Nat :=
  [211, 0, 14, 69, 160, 0, 0, 0, 0, 0, 0, 128, 0, 0, 0, 0, 0, 0, 0, 0]

/-- C10: QZSS messages leave constellation counters unchanged.  A decoded
message with id in 1114-1117 and a present non-zero satellite count matches
no constellation branch, so on any state satisfying the satellite-total
invariant the whole counter record is unchanged, while the count still
appears in the last-message summary; the MSM extractor does compute a count
for that window (`qzssFrame`). -/
theorem qzss_leaves_constellations_unchanged (s : SatelliteCounts) (msgType c : Nat)
    (h1 : 1114 ≤ msgType) (h2 : msgType ≤ 1117) (hc : c ≠ 0) (hinv : SatInvariant s) :
    updateSatellites s msgType (some c) = s ∧
      lastMessageSummary msgType (some c) =
        "RTCM " ++ toString msgType ++ " (" ++ toString c ++ " sats)" ∧
      parseMsmSatelliteCount qzssFrame 1114 = some 1 := by
  refine ⟨?_, ?_, by decide⟩
  · rw [updateSatellites, if_neg hc]
    rw [if_neg (by omega), if_neg (by omega), if_neg (by omega), if_neg (by omega),
      if_neg (by omega), if_neg (by omega)]
    rw [SatInvariant] at hinv
    cases s with
    | mk g r a b t =>
      simp only at hinv
      simp [hinv]
  · rw [lastMessageSummary, if_pos hc]

theorem qzss_leaves_constellations_unchanged_witness :
    updateSatellites ⟨1, 2, 3, 4, 10⟩ 1114 (some 5) = ⟨1, 2, 3, 4, 10⟩ :=
  (qzss_leaves_constellations_unchanged ⟨1, 2, 3, 4, 10⟩ 1114 5 (by decide) (by decide)
    (by decide) rfl).1
